import Mathlib

/-!
Verification of the phpsandbox/sdk notebook transport and adapters.

Shallow embedding of the TypeScript sources:
  src/src/socket/index.ts    (Transport: rate limiter, message queue, retries,
                              close handling, health status, metrics)
  src/src/terminal.ts        (Terminal.spawn process handle)
  src/src/filesystem.ts      (Filesystem.watch / FilesystemSubscription.dispose /
                              watchOkraConnection)
  src/src/beacon/navigator.ts (Navigator history)

Machine time stamps are modelled as naturals (milliseconds); JavaScript
`now - t < windowMs` on nonnegative integers coincides with the Lean
truncated subtraction `now - t < 1000` (when `t > now` both keep the entry).
-/

namespace PhpSdk

/-! ## Rate limiter (`Transport.isRateLimited`, socket/index.ts lines 1159-1173)

The limiter state is the array `rateLimiter.requests` of timestamps, with
`maxRequests = 50` and `windowMs = 1000`.
-/

/-- The filter `requests.filter((timestamp) => now - timestamp < windowMs)`. -/
def rlFilter (now : Nat) (reqs : List Nat) : List Nat :=
  reqs.filter (fun t => now - t < 1000)

/-- `Transport.isRateLimited`: drop entries outside the window; if at least
`maxRequests = 50` remain report limited, otherwise push `now` and admit.
Returns the reported flag and the mutated `requests` array. -/
def isRateLimited (now : Nat) (reqs : List Nat) : Bool × List Nat :=
  let kept := rlFilter now reqs
  if 50 ≤ kept.length then (true, kept) else (false, kept ++ [now])

/-- Successive `isRateLimited` calls (one per `Transport.call`) at the given
times, starting from limiter state `reqs`; returns the admitted times. -/
def rlRun (reqs : List Nat) : List Nat → List Nat
  | [] => []
  | now :: rest =>
    let r := isRateLimited now reqs
    if r.1 then rlRun r.2 rest else now :: rlRun r.2 rest

/-- Same process, but carrying the full history of admitted timestamps and
filtering it afresh at every step; equivalent to `rlRun` for a monotone
clock (below). -/
def rlRunHist (acc : List Nat) : List Nat → List Nat
  | [] => []
  | now :: rest =>
    if 50 ≤ (rlFilter now acc).length then rlRunHist acc rest
    else now :: rlRunHist (acc ++ [now]) rest

/-- Number of admitted timestamps inside the sliding window `[x, x + 1000)`. -/
def winCount (A : List Nat) (x : Nat) : Nat :=
  A.countP (fun t => decide (x ≤ t ∧ t < x + 1000))

lemma rlFilter_rlFilter {m now : Nat} (h : m ≤ now) (acc : List Nat) :
    rlFilter now (rlFilter m acc) = rlFilter now acc := by
  unfold rlFilter
  rw [List.filter_filter]
  apply List.filter_congr
  intro a _
  by_cases hn : now - a < 1000
  · have hm : m - a < 1000 := lt_of_le_of_lt (Nat.sub_le_sub_right h a) hn
    simp [hn, hm]
  · simp [hn]

lemma rlFilter_append_self (now : Nat) (acc : List Nat) :
    rlFilter now (acc ++ [now]) = rlFilter now acc ++ [now] := by
  unfold rlFilter
  rw [List.filter_append]
  simp

lemma rlRun_eq_rlRunHist :
    ∀ (times : List Nat) (acc : List Nat) (m : Nat),
      List.Chain (fun a b => a ≤ b) m times →
      rlRun (rlFilter m acc) times = rlRunHist acc times := by
  intro times
  induction times with
  | nil => intro acc m _; rfl
  | cons now rest ih =>
    intro acc m hchain
    rcases List.chain_cons.mp hchain with ⟨hmn, hrest⟩
    show rlRun (rlFilter m acc) (now :: rest) = rlRunHist acc (now :: rest)
    unfold rlRun rlRunHist isRateLimited
    simp only [rlFilter_rlFilter hmn acc]
    by_cases hsat : 50 ≤ (rlFilter now acc).length
    · simp only [hsat, if_true]
      exact ih acc now hrest
    · simp only [hsat, if_false]
      have : rlFilter now acc ++ [now] = rlFilter now (acc ++ [now]) :=
        (rlFilter_append_self now acc).symm
      rw [this]
      rw [ih (acc ++ [now]) now hrest]
      simp

lemma winCount_le_rlFilter_length {x now : Nat} (acc : List Nat)
    (h1 : x ≤ now) (h2 : now < x + 1000) :
    winCount acc x ≤ (rlFilter now acc).length := by
  unfold winCount rlFilter
  rw [← List.countP_eq_length_filter]
  apply List.countP_mono_left
  intro t _ ht
  have ht' : x ≤ t ∧ t < x + 1000 := of_decide_eq_true ht
  have : now - t < 1000 := by omega
  simpa using this

lemma winCount_append (A B : List Nat) (x : Nat) :
    winCount (A ++ B) x = winCount A x + winCount B x := by
  unfold winCount
  exact List.countP_append _ _ _

lemma rlRunHist_winBound :
    ∀ (times : List Nat) (acc : List Nat),
      (∀ x, winCount acc x ≤ 50) →
      ∀ x, winCount (acc ++ rlRunHist acc times) x ≤ 50 := by
  intro times
  induction times with
  | nil =>
    intro acc hinv x
    simpa [rlRunHist] using hinv x
  | cons now rest ih =>
    intro acc hinv x
    unfold rlRunHist
    by_cases hsat : 50 ≤ (rlFilter now acc).length
    · simp only [hsat, if_true]
      exact ih acc hinv x
    · simp only [hsat, if_false]
      have hnew : ∀ y, winCount (acc ++ [now]) y ≤ 50 := by
        intro y
        rw [winCount_append]
        by_cases hin : y ≤ now ∧ now < y + 1000
        · have hle : winCount acc y ≤ (rlFilter now acc).length :=
            winCount_le_rlFilter_length acc hin.1 hin.2
          have hone : winCount [now] y ≤ 1 := by
            unfold winCount
            simp only [List.countP_cons, List.countP_nil]
            split <;> simp
          omega
        · have hacc := hinv y
          have hzero : winCount [now] y = 0 := by
            unfold winCount
            simp only [List.countP_cons, List.countP_nil]
            simp [hin]
          omega
      have := ih (acc ++ [now]) hnew x
      simpa [List.append_assoc] using this

lemma rlRun_winBound (times : List Nat)
    (hmono : List.Chain (fun a b => a ≤ b) 0 times) :
    ∀ x, winCount (rlRun [] times) x ≤ 50 := by
  intro x
  have h0 : rlFilter 0 ([] : List Nat) = [] := rfl
  have := rlRun_eq_rlRunHist times [] 0 hmono
  rw [h0] at this
  rw [this]
  have hinv : ∀ y, winCount ([] : List Nat) y ≤ 50 := by
    intro y; simp [winCount]
  simpa using rlRunHist_winBound times [] hinv x

/-! ## `Transport.call` front end and message queue (socket/index.ts 793-909, 1112-1154)

`call` first runs the rate-limit gate (throwing a `RateLimitError` before
anything is sent), then `clearOldQueuedMessages`, then either queues the
request (bounded at `MAX_QUEUE_SIZE = 100`, dropping and rejecting the oldest
entry on overflow) when the socket is neither connected nor deliberately
closed, or sends the frame.
-/

/-- One entry of `Transport.messageQueue`: the action name plus the
`Date.now()` timestamp recorded at enqueue time. -/
structure QEntry where
  action : String
  timestamp : Nat
deriving DecidableEq, Repr

/-- The slice of `Transport` state that `call`, `clearOldQueuedMessages` and
`processMessageQueue` read and write. -/
structure TransportState where
  limiter : List Nat
  queue : List QEntry
  connected : Bool
  closed : Bool
deriving DecidableEq, Repr

/-- Externally observable effects of one `call` step or queue flush. -/
inductive CallEffect where
  | throwRateLimit
  | rejectExpired (e : QEntry)
  | rejectOldestDropped (e : QEntry)
  | enqueued (e : QEntry)
  | sentFrame (action : String)
  | rejectTimedOut (e : QEntry)
  | resent (e : QEntry)
deriving DecidableEq, Repr

/-- `Transport.clearOldQueuedMessages`: reject (in queue order) and drop every
entry older than `QUEUE_TIMEOUT = 30000` ms; keep the rest in order. -/
def clearOldQueuedMessages (now : Nat) : List QEntry → List QEntry × List CallEffect
  | [] => ([], [])
  | m :: rest =>
    let r := clearOldQueuedMessages now rest
    if 30000 < now - m.timestamp then (r.1, CallEffect.rejectExpired m :: r.2)
    else (m :: r.1, r.2)

/-- The synchronous decision structure of `Transport.call` (lines 793-894):
rate-limit gate, expiry sweep, then queue-or-send.  `JS shift()` on an empty
array yields `undefined` and the rejection is skipped, hence the `[]` case. -/
def callStep (st : TransportState) (now : Nat) (action : String) :
    TransportState × List CallEffect :=
  let rl := isRateLimited now st.limiter
  if rl.1 then ({ st with limiter := rl.2 }, [CallEffect.throwRateLimit])
  else
    let cleared := clearOldQueuedMessages now st.queue
    let st1 : TransportState := { st with limiter := rl.2, queue := cleared.1 }
    if st1.connected = false ∧ st1.closed = false then
      if 100 ≤ st1.queue.length then
        match st1.queue with
        | [] => ({ st1 with queue := [⟨action, now⟩] },
                 cleared.2 ++ [CallEffect.enqueued ⟨action, now⟩])
        | old :: restq =>
          ({ st1 with queue := restq ++ [⟨action, now⟩] },
           cleared.2 ++ [CallEffect.rejectOldestDropped old,
                         CallEffect.enqueued ⟨action, now⟩])
      else ({ st1 with queue := st1.queue ++ [⟨action, now⟩] },
            cleared.2 ++ [CallEffect.enqueued ⟨action, now⟩])
    else (st1, cleared.2 ++ [CallEffect.sentFrame action])

/-- `Transport.processMessageQueue` (lines 1112-1134), run on the socket
`open` event: walk the snapshot of the queue in FIFO order, reject entries
older than `QUEUE_TIMEOUT = 30000` ms and re-issue the rest via `call`. -/
def processMessageQueue (now : Nat) : List QEntry → List CallEffect
  | [] => []
  | m :: rest =>
    if 30000 < now - m.timestamp then
      CallEffect.rejectTimedOut m :: processMessageQueue now rest
    else
      CallEffect.resent m :: processMessageQueue now rest

lemma clearOldQueuedMessages_length_le (now : Nat) (q : List QEntry) :
    (clearOldQueuedMessages now q).1.length ≤ q.length := by
  induction q with
  | nil => simp [clearOldQueuedMessages]
  | cons m rest ih =>
    unfold clearOldQueuedMessages
    split
    · simpa using Nat.le_succ_of_le ih
    · simpa using ih

/-- C4.  The admitted sends of any monotone sequence of `Transport.call`
invocations number at most 50 inside every sliding 1000 ms window, and a call
arriving while the window is saturated produces only the thrown
`RateLimitError` — no frame is sent. -/
theorem rateLimiter_slidingWindow_and_rejectBeforeSend :
    (∀ times : List Nat, List.Chain (fun a b => a ≤ b) 0 times →
      ∀ x, winCount (rlRun [] times) x ≤ 50) ∧
    (∀ (st : TransportState) (now : Nat) (action : String),
      50 ≤ (rlFilter now st.limiter).length →
      (callStep st now action).2 = [CallEffect.throwRateLimit] ∧
      ∀ a, CallEffect.sentFrame a ∉ (callStep st now action).2) := by
  constructor
  · exact fun times h x => rlRun_winBound times h x
  · intro st now action hsat
    have hlim : (isRateLimited now st.limiter).1 = true := by
      unfold isRateLimited
      simp [hsat]
    constructor
    · unfold callStep
      simp [hlim]
    · intro a
      unfold callStep
      simp [hlim]

/-- Witness for C4 at concrete inputs: three calls at times 0, 1, 2 and one
saturated limiter state with 50 fresh timestamps. -/
theorem rateLimiter_slidingWindow_witness :
    (∀ x, winCount (rlRun [] [0, 1, 2]) x ≤ 50) ∧
    (callStep ⟨List.replicate 50 0, [], true, false⟩ 0 "ping").2 =
      [CallEffect.throwRateLimit] := by
  have h := rateLimiter_slidingWindow_and_rejectBeforeSend
  have hchain : List.Chain (fun a b => a ≤ b) 0 [0, 1, 2] :=
    List.Chain.cons (by norm_num)
      (List.Chain.cons (by norm_num) (List.Chain.cons (by norm_num) List.Chain.nil))
  refine ⟨h.1 [0, 1, 2] hchain, ?_⟩
  exact (h.2 ⟨List.replicate 50 0, [], true, false⟩ 0 "ping" (by decide)).1

/-- C5.  The disconnected-message queue is a bounded FIFO: `call` keeps its
length at most 100; on overflow the oldest entry is shifted off and rejected
before the new entry is appended; and the `open`-time flush walks the queue
in FIFO order, rejecting entries older than 30 s instead of re-sending them. -/
theorem messageQueue_bounded_fifo :
    (∀ (st : TransportState) (now : Nat) (action : String),
      st.queue.length ≤ 100 → ((callStep st now action).1).queue.length ≤ 100) ∧
    (∀ (st : TransportState) (now : Nat) (action : String)
        (old : QEntry) (restq : List QEntry),
      (isRateLimited now st.limiter).1 = false →
      st.connected = false → st.closed = false →
      (clearOldQueuedMessages now st.queue).1 = old :: restq →
      100 ≤ (old :: restq).length →
      ((callStep st now action).1).queue = restq ++ [⟨action, now⟩] ∧
      (callStep st now action).2 =
        (clearOldQueuedMessages now st.queue).2 ++
          [CallEffect.rejectOldestDropped old, CallEffect.enqueued ⟨action, now⟩]) ∧
    (∀ (now : Nat) (q : List QEntry),
      processMessageQueue now q =
        q.map (fun m =>
          if 30000 < now - m.timestamp then CallEffect.rejectTimedOut m
          else CallEffect.resent m)) := by
  refine ⟨?_, ?_, ?_⟩
  · intro st now action hlen
    have hclear := clearOldQueuedMessages_length_le now st.queue
    unfold callStep
    by_cases hrl : (isRateLimited now st.limiter).1
    · simp [hrl]; omega
    · simp only [hrl, Bool.false_eq_true, if_false]
      by_cases hq : st.connected = false ∧ st.closed = false
      · simp only [hq, and_self, if_true]
        by_cases hfull : 100 ≤ (clearOldQueuedMessages now st.queue).1.length
        · simp only [hfull, if_true]
          rcases hq1 : (clearOldQueuedMessages now st.queue).1 with _ | ⟨old, restq⟩
          · simp [hq1]
          · rw [hq1] at hfull
            simp only [hq1, List.length_cons] at hfull ⊢
            simp only [List.length_append, List.length_cons, List.length_nil]
            rw [hq1] at hclear
            simp at hclear
            omega
        · simp only [hfull, if_false]
          simp only [List.length_append, List.length_cons, List.length_nil]
          omega
      · simp [hq]
        omega
  · intro st now action old restq hrl hconn hclosed hclear hfull
    have hfull' : 100 ≤ restq.length + 1 := by simpa using hfull
    unfold callStep
    simp only [hrl, Bool.false_eq_true, if_false, hconn, hclosed, and_self, if_true,
      hclear, List.length_cons, hfull', if_true]
  · intro now q
    induction q with
    | nil => rfl
    | cons m rest ih =>
      unfold processMessageQueue
      by_cases hc : 30000 < now - m.timestamp
      · simp [hc, ih]
      · simp [hc, ih]

/-- Witness for C5: a full queue of 100 stale-free entries overflows by
rejecting the oldest and appending the newcomer, and a two-entry flush at
time 40000 rejects the 31-second-old entry while re-sending the fresh one. -/
theorem messageQueue_bounded_fifo_witness :
    ((callStep ⟨[], List.replicate 100 ⟨"a", 0⟩, false, false⟩ 0 "b").1).queue =
      List.replicate 99 (QEntry.mk "a" 0) ++ [⟨"b", 0⟩] ∧
    processMessageQueue 40000 [⟨"old", 9000⟩, ⟨"fresh", 15000⟩] =
      [CallEffect.rejectTimedOut ⟨"old", 9000⟩, CallEffect.resent ⟨"fresh", 15000⟩] := by
  have h := messageQueue_bounded_fifo
  constructor
  · have h2 := h.2.1 ⟨[], List.replicate 100 ⟨"a", 0⟩, false, false⟩ 0 "b"
      ⟨"a", 0⟩ (List.replicate 99 ⟨"a", 0⟩) (by decide) rfl rfl (by decide) (by decide)
    exact h2.1
  · rw [h.2.2 40000 [⟨"old", 9000⟩, ⟨"fresh", 15000⟩]]
    decide

/-! ## `closeHandler` inside `Transport.call` (socket/index.ts 876-885)

While a request is pending, a `close` or `error` event rejects it.  Close code
1008 with a reason containing the substring `rate limit` maps to a
`RateLimitError` carrying the reason; everything else maps to a
connection-lost `Error`. -/

/-- JavaScript `String.prototype.includes` on character lists. -/
def includesSub (l sub : List Char) : Bool :=
  match l with
  | [] => sub.isEmpty
  | _ :: t => sub.isPrefixOf l || includesSub t sub

/-- JavaScript `haystack.includes(needle)`. -/
def jsIncludes (s pat : String) : Bool :=
  includesSub s.toList pat.toList

/-- How a pending `call` promise is rejected by the socket close/error
handler. -/
inductive PendingRejection where
  | rateLimit (reason : String)
  | connectionLost (message : String)
deriving DecidableEq, Repr

/-- The `closeHandler` closure of `Transport.call`: `_ev.code` is absent on
error events (`none`); `_ev.reason || ''` supplies the default reason. -/
def closeHandler (code : Option Nat) (reason : Option String) : PendingRejection :=
  let r := reason.getD ""
  if code = some 1008 ∧ jsIncludes r "rate limit" = true then
    PendingRejection.rateLimit (if r = "" then "Rate limit exceeded" else r)
  else
    PendingRejection.connectionLost
      ("Connection lost to the notebook during request: " ++
        (if r = "" then "Unknown reason" else r))

lemma includesSub_ne_nil {l sub : List Char} (h : includesSub l sub = true)
    (hsub : sub ≠ []) : l ≠ [] := by
  intro hl
  subst hl
  unfold includesSub at h
  simp [List.isEmpty_iff] at h
  exact hsub h

/-- C6.  A close with code 1008 and a reason containing "rate limit" rejects
the pending request with a rate-limit error carrying that reason; any other
close or error event rejects it with a connection-lost error. -/
theorem closeHandler_classification :
    (∀ (code : Option Nat) (reason : Option String),
      code = some 1008 → jsIncludes (reason.getD "") "rate limit" = true →
      closeHandler code reason = PendingRejection.rateLimit (reason.getD "")) ∧
    (∀ (code : Option Nat) (reason : Option String),
      ¬(code = some 1008 ∧ jsIncludes (reason.getD "") "rate limit" = true) →
      closeHandler code reason =
        PendingRejection.connectionLost
          ("Connection lost to the notebook during request: " ++
            (if reason.getD "" = "" then "Unknown reason" else reason.getD ""))) := by
  constructor
  · intro code reason hcode hinc
    have hne : reason.getD "" ≠ "" := by
      intro hr
      have : (reason.getD "").toList ≠ [] := by
        apply includesSub_ne_nil hinc
        decide
      exact this (by simp [hr])
    unfold closeHandler
    rw [if_pos ⟨hcode, hinc⟩, if_neg hne]
  · intro code reason hnot
    unfold closeHandler
    rw [if_neg hnot]

/-- Witness for C6: a 1008 close with reason "rate limit exceeded" and a 1006
close with reason "going away". -/
theorem closeHandler_classification_witness :
    closeHandler (some 1008) (some "rate limit exceeded") =
      PendingRejection.rateLimit "rate limit exceeded" ∧
    closeHandler (some 1006) (some "going away") =
      PendingRejection.connectionLost
        ("Connection lost to the notebook during request: " ++ "going away") := by
  have h := closeHandler_classification
  constructor
  · exact h.1 (some 1008) (some "rate limit exceeded") rfl (by decide)
  · have := h.2 (some 1006) (some "going away") (by simp)
    simpa using this

/-! ## `Transport.sendWithRetry` (socket/index.ts 896-966)

`call` wraps the send in `async-retry` with `options.retries || 10` retries,
1 s base delay, factor 2, 30 s cap and jitter.  Errors of the types
`ErrorEvent`, `RateLimitError`, `InvalidConfigurationError`,
`InvalidMessageError` and `DOMException` (abort) are bailed: surfaced at once,
never retried. -/

/-- Classification of an error thrown by one send attempt, by the
`instanceof` checks of `sendWithRetry`. -/
inductive ErrKind where
  | errorEvent
  | rateLimit
  | invalidConfiguration
  | invalidMessage
  | abortException
  | connectionLost
deriving DecidableEq, Repr

/-- The non-retry list of `sendWithRetry`: `ErrorEvent`, `RateLimitError`
(itself an `ErrorEvent` subclass), `InvalidConfigurationError`,
`InvalidMessageError`, `DOMException`. -/
def nonRetryable : ErrKind → Bool
  | ErrKind.errorEvent => true
  | ErrKind.rateLimit => true
  | ErrKind.invalidConfiguration => true
  | ErrKind.invalidMessage => true
  | ErrKind.abortException => true
  | ErrKind.connectionLost => false

/-- Result of one attempt of the wrapped sender. -/
inductive Attempt where
  | ok
  | err (k : ErrKind)
deriving DecidableEq, Repr

/-- Final outcome of the retry loop, with the number of attempts made. -/
inductive RetryOutcome where
  | success (attempts : Nat)
  | bailed (k : ErrKind) (attempts : Nat)
  | exhausted (k : ErrKind) (attempts : Nat)
deriving DecidableEq, Repr

def attemptsOf : RetryOutcome → Nat
  | RetryOutcome.success n => n
  | RetryOutcome.bailed _ n => n
  | RetryOutcome.exhausted _ n => n

/-- The `async-retry` loop of `sendWithRetry`: attempt `i` draws
`sender i`; a non-retryable error is bailed immediately, a retryable error
consumes one unit of the remaining retry budget. -/
def runRetryAux (sender : Nat → Attempt) (i : Nat) : Nat → RetryOutcome
  | 0 =>
    match sender i with
    | Attempt.ok => RetryOutcome.success (i + 1)
    | Attempt.err k =>
      if nonRetryable k then RetryOutcome.bailed k (i + 1)
      else RetryOutcome.exhausted k (i + 1)
  | fuel + 1 =>
    match sender i with
    | Attempt.ok => RetryOutcome.success (i + 1)
    | Attempt.err k =>
      if nonRetryable k then RetryOutcome.bailed k (i + 1)
      else runRetryAux sender (i + 1) fuel

/-- `sendWithRetry(sender, retries)`: first attempt plus at most `retries`
retries. -/
def sendWithRetry (sender : Nat → Attempt) (retries : Nat) : RetryOutcome :=
  runRetryAux sender 0 retries

/-- The `CallOption.retries` field: absent, `false`, or a number; `call`
computes `options.retries || 10`, so absent, `false` and `0` all yield 10. -/
inductive RetriesOption where
  | unset
  | fals
  | num (n : Nat)
deriving DecidableEq, Repr

def resolveRetries : RetriesOption → Nat
  | RetriesOption.unset => 10
  | RetriesOption.fals => 10
  | RetriesOption.num n => if n = 0 then 10 else n

/-- `Transport.getBackoffDelay`: `min(1000 * 2^retryCount, 30000)` plus a
jitter in `[0, 1000)`. -/
def getBackoffDelay (retryCount jitter : Nat) : Nat :=
  min (1000 * 2 ^ retryCount) 30000 + jitter

lemma runRetryAux_attempts_le (sender : Nat → Attempt) :
    ∀ (fuel i : Nat), attemptsOf (runRetryAux sender i fuel) ≤ i + fuel + 1 := by
  intro fuel
  induction fuel with
  | zero =>
    intro i
    unfold runRetryAux
    cases sender i with
    | ok => simp [attemptsOf]
    | err k =>
      by_cases hk : nonRetryable k <;> simp [hk, attemptsOf]
  | succ n ih =>
    intro i
    unfold runRetryAux
    cases sender i with
    | ok => simp [attemptsOf]
    | err k =>
      by_cases hk : nonRetryable k
      · simp [hk, attemptsOf]
      · simp only [hk, Bool.false_eq_true, if_false]
        have := ih (i + 1)
        omega

lemma runRetryAux_bail_at (sender : Nat → Attempt) (k : ErrKind)
    (hk : nonRetryable k = true) :
    ∀ (i start fuel : Nat),
      (∀ j, j < i → ∃ kj, sender (start + j) = Attempt.err kj ∧ nonRetryable kj = false) →
      sender (start + i) = Attempt.err k →
      i ≤ fuel →
      runRetryAux sender start fuel = RetryOutcome.bailed k (start + i + 1) := by
  intro i
  induction i with
  | zero =>
    intro start fuel _ hs _
    rw [Nat.add_zero] at hs
    cases fuel with
    | zero => unfold runRetryAux; rw [hs]; simp [hk]
    | succ f => unfold runRetryAux; rw [hs]; simp [hk]
  | succ n ih =>
    intro start fuel hpre hs hle
    obtain ⟨k0, hk0, hk0r⟩ := hpre 0 (Nat.succ_pos n)
    rw [Nat.add_zero] at hk0
    cases fuel with
    | zero => omega
    | succ f =>
      unfold runRetryAux
      rw [hk0]
      simp only [hk0r, Bool.false_eq_true, if_false]
      have hpre' : ∀ j, j < n →
          ∃ kj, sender (start + 1 + j) = Attempt.err kj ∧ nonRetryable kj = false := by
        intro j hj
        have := hpre (j + 1) (by omega)
        rwa [show start + (j + 1) = start + 1 + j by omega] at this
      have hs' : sender (start + 1 + n) = Attempt.err k := by
        rwa [show start + (n + 1) = start + 1 + n by omega] at hs
      rw [ih (start + 1) f hpre' hs' (by omega)]
      congr 1
      omega

/-- C7.  `call` defaults to 10 retries with the capped exponential backoff of
`getBackoffDelay`; whenever the first attempt that fails with a
non-retryable kind (typed application error, rate-limit, invalid message,
invalid configuration, abort) is attempt `i` — every earlier attempt having
failed with a retryable error — and `i` is within the retry budget, the loop
bails right there, surfacing that error after exactly `i + 1` attempts with
no further retry; and the loop never makes more than `retries + 1`
attempts. -/
theorem sendWithRetry_policy :
    resolveRetries RetriesOption.unset = 10 ∧
    (∀ (sender : Nat → Attempt) (retries i : Nat) (k : ErrKind),
      (∀ j, j < i → ∃ kj, sender j = Attempt.err kj ∧ nonRetryable kj = false) →
      sender i = Attempt.err k → nonRetryable k = true →
      i ≤ retries →
      sendWithRetry sender retries = RetryOutcome.bailed k (i + 1)) ∧
    (∀ (sender : Nat → Attempt) (retries : Nat),
      attemptsOf (sendWithRetry sender retries) ≤ retries + 1) ∧
    (∀ (n j : Nat), 1000 * 2 ^ n ≤ 30000 → getBackoffDelay n j = 1000 * 2 ^ n + j) ∧
    (∀ (n j : Nat), getBackoffDelay n j ≤ 30000 + j) := by
  refine ⟨rfl, ?_, ?_, ?_, ?_⟩
  · intro sender retries i k hpre hs hk hle
    have hpre' : ∀ j, j < i →
        ∃ kj, sender (0 + j) = Attempt.err kj ∧ nonRetryable kj = false := by
      intro j hj
      simpa using hpre j hj
    have hs' : sender (0 + i) = Attempt.err k := by simpa using hs
    have := runRetryAux_bail_at sender k hk i 0 retries hpre' hs' hle
    simpa [sendWithRetry] using this
  · intro sender retries
    simpa using runRetryAux_attempts_le sender retries 0
  · intro n j h
    unfold getBackoffDelay
    rw [min_eq_left h]
  · intro n j
    unfold getBackoffDelay
    have : min (1000 * 2 ^ n) 30000 ≤ 30000 := min_le_right _ _
    omega

/-- Witness for C7: a rate-limit error on the first attempt is bailed after
one attempt; a typed server error first arising on the second attempt, after
a retryable connection-lost failure, is bailed after exactly two attempts;
and the second backoff delay is 4 s plus jitter. -/
theorem sendWithRetry_policy_witness :
    sendWithRetry (fun _ => Attempt.err ErrKind.rateLimit) 10 =
      RetryOutcome.bailed ErrKind.rateLimit 1 ∧
    sendWithRetry
        (fun n => if n = 0 then Attempt.err ErrKind.connectionLost
                  else Attempt.err ErrKind.errorEvent) 10 =
      RetryOutcome.bailed ErrKind.errorEvent 2 ∧
    attemptsOf (sendWithRetry (fun _ => Attempt.err ErrKind.connectionLost) 10) ≤ 11 ∧
    getBackoffDelay 2 7 = 4007 := by
  have h := sendWithRetry_policy
  refine ⟨?_, ?_, ?_, ?_⟩
  · exact h.2.1 (fun _ => Attempt.err ErrKind.rateLimit) 10 0 ErrKind.rateLimit
      (fun j hj => absurd hj (Nat.not_lt_zero j)) rfl rfl (Nat.zero_le 10)
  · have hpre : ∀ j, j < 1 →
        ∃ kj, (fun n => if n = 0 then Attempt.err ErrKind.connectionLost
                        else Attempt.err ErrKind.errorEvent) j = Attempt.err kj ∧
          nonRetryable kj = false := by
      intro j hj
      have hj0 : j = 0 := by omega
      subst hj0
      exact ⟨ErrKind.connectionLost, rfl, rfl⟩
    exact h.2.1 (fun n => if n = 0 then Attempt.err ErrKind.connectionLost
        else Attempt.err ErrKind.errorEvent) 10 1 ErrKind.errorEvent hpre rfl rfl
      (by norm_num)
  · exact h.2.2.1 (fun _ => Attempt.err ErrKind.connectionLost) 10
  · have := h.2.2.2.1 2 7 (by norm_num)
    simpa using this

/-! ## `Transport.getHealthStatus` (socket/index.ts 1234-1253)

The health derivation reads the metrics snapshot.  Fields are embedded as
naturals: `timeSinceLastPong` and `avgResponseTime` in milliseconds, and the
parsed percentage `Number.parseFloat(stats.errorRate)` in hundredths of a
percent (`errorRateCenti`), so the code's `> 50` is `> 5000` and `> 10` is
`> 1000`.  `PING_INTERVAL * 1.5 < t` is the exact integer test
`3 * pingInterval < 2 * t`. -/

inductive Health where
  | healthy
  | degraded
  | unhealthy
deriving DecidableEq, Repr

/-- The metric fields read by `getHealthStatus`. -/
structure HealthStats where
  isConnected : Bool
  timeSinceLastPong : Nat
  errorRateCenti : Nat
  avgResponseTime : Nat
deriving DecidableEq, Repr

/-- `Transport.getHealthStatus`, translated from the source. -/
def getHealthStatus (pingInterval : Nat) (s : HealthStats) : Health :=
  if s.isConnected = false ∨ pingInterval * 2 < s.timeSinceLastPong ∨
      5000 < s.errorRateCenti then
    Health.unhealthy
  else if 5000 < s.avgResponseTime ∨ 1000 < s.errorRateCenti ∨
      3 * pingInterval < 2 * s.timeSinceLastPong then
    Health.degraded
  else Health.healthy

/-- The health derivation exactly as the claim states it: Unhealthy when not
connected, no pong for more than 2x the interval, or error rate above 50%;
Degraded when average response exceeds 5 s or error rate exceeds 10%;
Healthy in every other case. -/
def claimHealthStatus (pingInterval : Nat) (s : HealthStats) : Health :=
  if s.isConnected = false ∨ 2 * pingInterval < s.timeSinceLastPong ∨
      50 * 100 < s.errorRateCenti then
    Health.unhealthy
  else if 5000 < s.avgResponseTime ∨ 10 * 100 < s.errorRateCenti then
    Health.degraded
  else Health.healthy

/-- The claim's derivation amended with the degraded condition the code also
checks: no pong for more than 1.5x the ping interval. -/
def amendedHealthStatus (pingInterval : Nat) (s : HealthStats) : Health :=
  if s.isConnected = false ∨ 2 * pingInterval < s.timeSinceLastPong ∨
      50 * 100 < s.errorRateCenti then
    Health.unhealthy
  else if 5000 < s.avgResponseTime ∨ 10 * 100 < s.errorRateCenti ∨
      3 * pingInterval < 2 * s.timeSinceLastPong then
    Health.degraded
  else Health.healthy

/-- C8 counterexample: connected, pong 50 s old against a 30 s ping interval,
no errors, fast responses.  The code reports Degraded (pong older than
1.5x interval); the claim's derivation says Healthy. -/
theorem getHealthStatus_claim_counterexample :
    getHealthStatus 30000 ⟨true, 50000, 0, 0⟩ ≠
      claimHealthStatus 30000 ⟨true, 50000, 0, 0⟩ := by
  decide

/-- C8 amended.  `getHealthStatus` equals the claim's derivation extended
with the third degraded condition: no pong for more than 1.5x the ping
interval. -/
theorem getHealthStatus_amended :
    ∀ (pingInterval : Nat) (s : HealthStats),
      getHealthStatus pingInterval s = amendedHealthStatus pingInterval s := by
  intro p s
  rcases s with ⟨c, t, er, avg⟩
  unfold getHealthStatus amendedHealthStatus
  cases c
  · simp
  · have h1 : (p * 2 < t) = (2 * p < t) := by rw [Nat.mul_comm]
    have h2 : (5000 < er) = (50 * 100 < er) := by norm_num
    have h3 : (1000 < er) = (10 * 100 < er) := by norm_num
    simp only [h1, h2, h3]

/-! ## Observability reads mutate the rate limiter
(socket/index.ts 1190-1229, 1234-1253)

`getConnectionMetrics` builds its `rateLimiter` sub-record with
`isLimited: this.isRateLimited()`, so every metrics read runs the limiter:
when fewer than 50 timestamps are inside the window, a fresh timestamp is
appended.  `getHealthStatus` and `runDiagnostics` call
`getConnectionMetrics`, inheriting the effect. -/

/-- The `rateLimiter` sub-record of the metrics snapshot.  `currentRequests`
is read before the `isLimited` call mutates the array. -/
structure RateLimiterInfo where
  currentRequests : Nat
  maxRequests : Nat
  windowMs : Nat
  isLimited : Bool
deriving DecidableEq, Repr

/-- `Transport.getConnectionMetrics` restricted to its rate-limiter reads and
its effect on `rateLimiter.requests` (second component). -/
def getConnectionMetrics (now : Nat) (reqs : List Nat) : RateLimiterInfo × List Nat :=
  let pre := reqs.length
  let r := isRateLimited now reqs
  ({ currentRequests := pre, maxRequests := 50, windowMs := 1000,
     isLimited := r.1 }, r.2)

/-- The limiter state after `getHealthStatus`, which obtains its stats from
`getConnectionMetrics`. -/
def getHealthStatusLimiterEffect (now : Nat) (reqs : List Nat) : List Nat :=
  (getConnectionMetrics now reqs).2

/-- C10.  Reading metrics appends a fresh timestamp whenever fewer than 50
timestamps are in the window; concretely, with 49 fresh timestamps one
`getHealthStatus` fills the window so the next `call` is rejected with a
rate-limit error, whereas without the observational read it would have been
sent. -/
theorem observability_mutates_rateLimiter :
    (∀ (now : Nat) (reqs : List Nat),
      (rlFilter now reqs).length < 50 →
      (getConnectionMetrics now reqs).2 = rlFilter now reqs ++ [now]) ∧
    (getHealthStatusLimiterEffect 0 (List.replicate 49 0)).length = 50 ∧
    (callStep ⟨getHealthStatusLimiterEffect 0 (List.replicate 49 0), [], true, false⟩
        0 "ping").2 = [CallEffect.throwRateLimit] ∧
    (callStep ⟨List.replicate 49 0, [], true, false⟩ 0 "ping").2 =
      [CallEffect.sentFrame "ping"] := by
  refine ⟨?_, by decide, by decide, by decide⟩
  intro now reqs h
  unfold getConnectionMetrics isRateLimited
  simp only []
  rw [if_neg (by omega)]

/-- Witness for C10's universally quantified part at a concrete input. -/
theorem observability_mutates_rateLimiter_witness :
    (getConnectionMetrics 5 [2]).2 = rlFilter 5 [2] ++ [5] :=
  observability_mutates_rateLimiter.1 5 [2] (by decide)

/-! ## Filesystem watch lifecycle (filesystem.ts 442-468, 639-653)

`Filesystem.watch` registers a local listener on `fs.watch.<path>`, stores the
watch in the `watches` map keyed by path, and invokes `fs.watch`.  The
returned `FilesystemSubscription.dispose` invokes `fs.unwatch` and then runs
the wrapped disposable, which detaches the local listener and invokes
`fs.unwatch` a second time.  `watchOkraConnection` re-runs `watch` for every
entry of the map on each socket `open`. -/

/-- A request sent to the server by the filesystem adapter. -/
inductive FsRequest where
  | fsWatch (path : String)
  | fsUnwatch (path : String)
deriving DecidableEq, Repr

/-- The `WatchOptions` stored with each watch (fields irrelevant to the
claims are summarised by `recursive`). -/
structure WatchOpts where
  recursive : Bool
deriving DecidableEq, Repr

/-- The adapter state: the trace of server requests (oldest first), the
active local listener topics, and the `watches` map as an insertion-ordered
association list keyed by path. -/
structure FsState where
  requests : List FsRequest
  listeners : List String
  watches : List (String × WatchOpts)
deriving DecidableEq, Repr

def fsEmpty : FsState := ⟨[], [], []⟩

/-- `Map.set`: replace in place when the key exists, append otherwise. -/
def mapSet (m : List (String × WatchOpts)) (k : String) (v : WatchOpts) :
    List (String × WatchOpts) :=
  if m.any (fun e => e.1 = k) then
    m.map (fun e => if e.1 = k then (k, v) else e)
  else m ++ [(k, v)]

/-- Remove the first registration of a topic (the local listener detach). -/
def removeListener : List String → String → List String
  | [], _ => []
  | t :: rest, topic =>
    if t = topic then rest else t :: removeListener rest topic

/-- `Filesystem.watch(path, options, onDidChange)`: listen on
`fs.watch.<path>`, record the watch in the map, invoke `fs.watch`. -/
def fsWatch (st : FsState) (path : String) (opts : WatchOpts) : FsState :=
  let st1 : FsState := { st with listeners := st.listeners ++ ["fs.watch." ++ path] }
  let st2 : FsState := { st1 with watches := mapSet st1.watches path opts }
  { st2 with requests := st2.requests ++ [FsRequest.fsWatch path] }

/-- `FilesystemSubscription.dispose`: invoke `fs.unwatch`, then run the
wrapped disposable from `watch`, which detaches the local listener and
invokes `fs.unwatch` again.  The `watches` map is left untouched. -/
def fsDispose (st : FsState) (path : String) : FsState :=
  let st1 : FsState := { st with requests := st.requests ++ [FsRequest.fsUnwatch path] }
  let st2 : FsState :=
    { st1 with listeners := removeListener st1.listeners ("fs.watch." ++ path) }
  { st2 with requests := st2.requests ++ [FsRequest.fsUnwatch path] }

/-- The `onDidConnect` handler installed by `watchOkraConnection`: re-run
`watch` for every entry of the map. -/
def fsReconnectReplay (st : FsState) : FsState :=
  st.watches.foldl (fun acc e => fsWatch acc e.1 e.2) st

/-- C2 counterexample: one `watch("/app")` followed by one `dispose()` sends
`fs.unwatch` twice, not exactly once. -/
theorem watch_dispose_unwatch_count_counterexample :
    ¬((fsDispose (fsWatch fsEmpty "/app" ⟨true⟩) "/app").requests.count
        (FsRequest.fsUnwatch "/app") = 1) := by
  decide

/-- C2 amended.  For every `watch(path)` matched by one `dispose()` the
request trace grows by exactly one `fs.watch` followed by exactly two
`fs.unwatch` for that path (dispose issues `fs.unwatch` both directly and
through the wrapped disposable), the `fs.watch` preceding both. -/
theorem watch_dispose_request_trace :
    ∀ (st : FsState) (path : String) (opts : WatchOpts),
      (fsDispose (fsWatch st path opts) path).requests =
        st.requests ++
          [FsRequest.fsWatch path, FsRequest.fsUnwatch path, FsRequest.fsUnwatch path] := by
  intro st path opts
  unfold fsDispose fsWatch
  simp

/-- C3.  Evaluation at the failing input: after `watch("/app")` and
`dispose()`, the path is still in the `watches` map, and the reconnect
replay issues `fs.watch` for the disposed path again. -/
theorem reconnect_reissues_disposed_watch :
    ((fsDispose (fsWatch fsEmpty "/app" ⟨true⟩) "/app").watches.any
        (fun e => e.1 = "/app") = true) ∧
    ((fsReconnectReplay (fsDispose (fsWatch fsEmpty "/app" ⟨true⟩) "/app")).requests.drop
        (fsDispose (fsWatch fsEmpty "/app" ⟨true⟩) "/app").requests.length =
      [FsRequest.fsWatch "/app"]) := by
  constructor
  · decide
  · decide

/-! ## `Terminal.spawn` (terminal.ts 105-164)

After the `terminal.spawn` invocation resolves with the server Task, `spawn`
registers a listener on the shared `terminal.output` topic (filtering by id,
enqueueing into the output stream) and a listener on `terminal.started`
(filtering by id, resolving the exit promise with the literal 0).  No
listener is registered for any `terminal.close.<id>` push, and nothing
disposes the subscriptions when the process ends; disposal happens only via
input close, output cancel, or `kill()`. -/

/-- Server pushes relevant to a spawned process.  `closeEvt` stands for a
`terminal.close.<id>` push reporting the exit code. -/
inductive TermEvent where
  | output (id : String) (out : String)
  | started (id : String)
  | closeEvt (id : String) (exitCode : Nat)
deriving DecidableEq, Repr

/-- Observable state of one spawned process handle. -/
structure SpawnState where
  outputBuf : List String
  exitResolved : Option Nat
  disposed : Bool
deriving DecidableEq, Repr

def spawnInit : SpawnState := ⟨[], none, false⟩

/-- Dispatch of one server push to the listeners `spawn` registered for
process `pid`.  A promise resolves only once, hence the `exitResolved`
guard; `terminal.close.<id>` pushes reach no listener. -/
def spawnHandleEvent (pid : String) (st : SpawnState) (ev : TermEvent) : SpawnState :=
  match ev with
  | TermEvent.output id out =>
    if id = pid then { st with outputBuf := st.outputBuf ++ [out] } else st
  | TermEvent.started id =>
    if id = pid then
      match st.exitResolved with
      | none => { st with exitResolved := some 0 }
      | some _ => st
    else st
  | TermEvent.closeEvt _ _ => st

def spawnRun (pid : String) (evs : List TermEvent) : SpawnState :=
  evs.foldl (spawnHandleEvent pid) spawnInit

/-- C1.  Evaluation at the failing input: when the server reports that
process p1 ended with exit code 3, the handle's exit promise stays pending
and nothing is disposed; and a `terminal.started` push resolves exit with
the literal 0 instead of a server-reported exit code. -/
theorem spawn_exit_ignores_server_close :
    (spawnRun "p1" [TermEvent.closeEvt "p1" 3]).exitResolved = none ∧
    (spawnRun "p1" [TermEvent.closeEvt "p1" 3]).disposed = false ∧
    (spawnRun "p1" [TermEvent.started "p1"]).exitResolved = some 0 := by
  refine ⟨rfl, rfl, rfl⟩

/-! ## Beacon navigator history (beacon/navigator.ts 64-207)

`visit` truncates any forward tail, appends the URL, moves the index to the
end, runs `updateNavigationState` and emits `historyChange(url, push)`.
`updateNavigationState` recomputes `canGoBack`/`canGoForward` and emits
`navigationStateChange` only when one of the two flags actually changed.
`goBack`/`goForward` move the index by one when the cached flag allows it. -/

inductive NavDirection where
  | back
  | forward
  | push
  | replace
  | reload
deriving DecidableEq, Repr

inductive NavEvent where
  | historyChange (url : String) (direction : NavDirection)
  | navigationStateChange (canGoBack canGoForward : Bool)
      (currentIndex historyLength : Nat)
deriving DecidableEq, Repr

/-- The navigator's internal state: `urlHistory`, `currentIndex` and the two
cached flags. -/
structure NavState where
  urlHistory : List String
  currentIndex : Nat
  canGoBack : Bool
  canGoForward : Bool
deriving DecidableEq, Repr

/-- Result of one navigator operation: new state, emitted events in order,
and the `NavigationResult.success` flag. -/
structure NavResult where
  state : NavState
  events : List NavEvent
  success : Bool
deriving DecidableEq, Repr

/-- `Navigator.updateNavigationState`: recompute the flags and emit
`navigationStateChange` only if one of them changed. -/
def updateNavigationState (st : NavState) : NavState × List NavEvent :=
  let ncgb := decide (0 < st.currentIndex)
  let ncgf := decide (st.currentIndex < st.urlHistory.length - 1)
  let st1 : NavState := { st with canGoBack := ncgb, canGoForward := ncgf }
  if st.canGoBack ≠ ncgb ∨ st.canGoForward ≠ ncgf then
    (st1, [NavEvent.navigationStateChange ncgb ncgf st1.currentIndex
            st1.urlHistory.length])
  else (st1, [])

/-- `Navigator.visit(url)`: truncate the forward tail when not at the end,
append, move the index to the end, update state, emit
`historyChange(url, push)`. -/
def navVisit (st : NavState) (url : String) : NavResult :=
  let hist :=
    if st.currentIndex < st.urlHistory.length - 1 then
      st.urlHistory.take (st.currentIndex + 1)
    else st.urlHistory
  let hist2 := hist ++ [url]
  let st1 : NavState := { st with urlHistory := hist2, currentIndex := hist2.length - 1 }
  let u := updateNavigationState st1
  ⟨u.1, u.2 ++ [NavEvent.historyChange url NavDirection.push], true⟩

/-- `Navigator.goBack`: fail when the cached `canGoBack` is false; otherwise
decrement the index, update state, emit `historyChange(url, back)`. -/
def navGoBack (st : NavState) : NavResult :=
  if st.canGoBack = false then ⟨st, [], false⟩
  else
    let st1 : NavState := { st with currentIndex := st.currentIndex - 1 }
    let u := updateNavigationState st1
    let url := u.1.urlHistory.getD u.1.currentIndex ""
    ⟨u.1, u.2 ++ [NavEvent.historyChange url NavDirection.back], true⟩

/-- `Navigator.goForward`: fail when the cached `canGoForward` is false;
otherwise increment the index, update state, emit
`historyChange(url, forward)`. -/
def navGoForward (st : NavState) : NavResult :=
  if st.canGoForward = false then ⟨st, [], false⟩
  else
    let st1 : NavState := { st with currentIndex := st.currentIndex + 1 }
    let u := updateNavigationState st1
    let url := u.1.urlHistory.getD u.1.currentIndex ""
    ⟨u.1, u.2 ++ [NavEvent.historyChange url NavDirection.forward], true⟩

/-- The constructor: push `iframe.src`, then `updateNavigationState`. -/
def navInit (src : String) : NavState × List NavEvent :=
  updateNavigationState ⟨[src], 0, false, false⟩

/-- True when the list contains a `navigationStateChange` event. -/
def containsNavStateChange (evs : List NavEvent) : Bool :=
  evs.any (fun e =>
    match e with
    | NavEvent.navigationStateChange _ _ _ _ => true
    | _ => false)

/-- The state after the constructor on "a" and one visit of "b":
history [a, b], index 1, canGoBack true. -/
def navAB : NavState := (navVisit (navInit "a").1 "b").state

/-- C9 counterexample: the second `visit` is a history mutation that emits
`historyChange` but no `navigationStateChange`, because neither flag
changed. -/
theorem visit_no_navigationStateChange_counterexample :
    containsNavStateChange (navVisit navAB "c").events = false ∧
    (navVisit navAB "c").events = [NavEvent.historyChange "c" NavDirection.push] := by
  constructor
  · decide
  · decide

lemma updateNavigationState_fst_urlHistory (st : NavState) :
    (updateNavigationState st).1.urlHistory = st.urlHistory := by
  unfold updateNavigationState
  dsimp only
  split <;> rfl

lemma updateNavigationState_fst_currentIndex (st : NavState) :
    (updateNavigationState st).1.currentIndex = st.currentIndex := by
  unfold updateNavigationState
  dsimp only
  split <;> rfl

lemma navVisit_history_aux (st : NavState) :
    (if st.currentIndex < st.urlHistory.length - 1 then
        st.urlHistory.take (st.currentIndex + 1)
      else st.urlHistory) =
      st.urlHistory.take (st.currentIndex + 1) := by
  split
  · rfl
  · rw [List.take_of_length_le]
    omega

/-- C9 amended.  Every `visit` emits `historyChange(url, push)` and replaces
the history with the truncated prefix up to the current index followed by the
new URL, moving the index to the new end; `goBack`/`goForward` (when their
cached flag allows) move the index by one and emit `historyChange`; and
`navigationStateChange` is emitted exactly when one of the derived
`canGoBack`/`canGoForward` flags changes. -/
theorem navigator_mutations_amended :
    (∀ (st : NavState) (url : String),
      NavEvent.historyChange url NavDirection.push ∈ (navVisit st url).events ∧
      (navVisit st url).state.urlHistory =
        st.urlHistory.take (st.currentIndex + 1) ++ [url] ∧
      (navVisit st url).state.currentIndex =
        (st.urlHistory.take (st.currentIndex + 1)).length) ∧
    (∀ st : NavState, st.canGoBack = true →
      (navGoBack st).state.currentIndex = st.currentIndex - 1 ∧
      (navGoBack st).success = true ∧
      ∃ u, NavEvent.historyChange u NavDirection.back ∈ (navGoBack st).events) ∧
    (∀ st : NavState, st.canGoForward = true →
      (navGoForward st).state.currentIndex = st.currentIndex + 1 ∧
      (navGoForward st).success = true ∧
      ∃ u, NavEvent.historyChange u NavDirection.forward ∈ (navGoForward st).events) ∧
    (∀ st : NavState,
      containsNavStateChange (updateNavigationState st).2 = true ↔
        (st.canGoBack ≠ decide (0 < st.currentIndex) ∨
         st.canGoForward ≠ decide (st.currentIndex < st.urlHistory.length - 1))) := by
  refine ⟨?_, ?_, ?_, ?_⟩
  · intro st url
    refine ⟨?_, ?_, ?_⟩
    · unfold navVisit
      dsimp only
      exact List.mem_append_right _ (List.mem_singleton_self _)
    · unfold navVisit
      dsimp only
      rw [updateNavigationState_fst_urlHistory, navVisit_history_aux st]
    · unfold navVisit
      dsimp only
      rw [updateNavigationState_fst_currentIndex, navVisit_history_aux st]
      simp
  · intro st h
    unfold navGoBack
    rw [h]
    simp only [Bool.true_eq_false, if_false]
    refine ⟨?_, by trivial, ?_⟩
    · rw [updateNavigationState_fst_currentIndex]
    · exact ⟨_, List.mem_append_right _ (List.mem_singleton_self _)⟩
  · intro st h
    unfold navGoForward
    rw [h]
    simp only [Bool.true_eq_false, if_false]
    refine ⟨?_, by trivial, ?_⟩
    · rw [updateNavigationState_fst_currentIndex]
    · exact ⟨_, List.mem_append_right _ (List.mem_singleton_self _)⟩
  · intro st
    unfold updateNavigationState containsNavStateChange
    dsimp only
    split
    · next hcond =>
      exact iff_of_true (by simp) hcond
    · next hcond =>
      exact iff_of_false (by simp) hcond

/-- Witness for C9 amended, at the concrete state `navAB` (history [a, b],
index 1, canGoBack true). -/
theorem navigator_mutations_amended_witness :
    (navVisit navAB "c").state.urlHistory = ["a", "b", "c"] ∧
    (navGoBack navAB).state.currentIndex = 0 := by
  have h := navigator_mutations_amended
  constructor
  · have := (h.1 navAB "c").2.1
    simpa using this
  · have := (h.2.1 navAB rfl).1
    simpa using this

end PhpSdk
